import Mathlib

/-
  Shallow embedding of the meowview ingestion pipeline (Go).

  Go strings are byte sequences; `len` and slicing are byte operations.  We
  model a Go string as `List Char`, one `Char` per byte, so `List.length`,
  `List.take` and list equality coincide with the source's `len`, `[:n]`
  slicing and `==`.  String literals are written `"...".data`.

  The HTTP layer used by the identity resolver is external: it is modelled as
  an oracle `HttpOracle` mapping a URL to `none` (request-creation failure,
  network failure or timeout) or to a response carrying an HTTP status code
  and the result of JSON-decoding the body into the minimal `DIDDocument`
  shape (`none` = undecodable body).  Transport configuration (the 5 second
  timeout, redirects disabled for web DIDs) is absorbed by the oracle.
-/

namespace Meowview

abbrev Str := List Char

/-- strings.HasPrefix. -/
def startsWithStr : Str → Str → Bool
  | _, [] => true
  | [], _ :: _ => false
  | c :: s, p :: ps => decide (c = p) && startsWithStr s ps

/-- strings.Contains (substring search, byte-wise). -/
def strContains : Str → Str → Bool
  | [], sub => decide (sub = [])
  | c :: rest, sub => startsWithStr (c :: rest) sub || strContains rest sub

/-- strings.ToLower (ASCII; sufficient for the byte-level model). -/
def toLowerStr (s : Str) : Str := s.map Char.toLower

/-- Split a string at the first occurrence of the separator, if any. -/
def splitOnFirst (sep : Char) : Str → Option (Str × Str)
  | [] => none
  | c :: rest =>
    if c = sep then some ([], rest)
    else (splitOnFirst sep rest).map (fun p => (c :: p.1, p.2))

/-- Helper for strings.SplitN: at most `n` parts, the last part unsplit. -/
def splitNAux (sep : Char) : Nat → Str → List Str
  | 0, _ => []
  | 1, s => [s]
  | n + 2, s =>
    match splitOnFirst sep s with
    | none => [s]
    | some (a, b) => a :: splitNAux sep (n + 1) b

/-- strings.SplitN(s, sep, n). -/
def splitN (s : Str) (sep : Char) (n : Nat) : List Str := splitNAux sep n s

/-- The minimal DID document shape: only the id field is decoded. -/
structure DIDDocument where
  id : Str
deriving DecidableEq

/-- Outcome of an HTTP GET: status code and the decoded body (none = the
JSON decoder failed on the body). -/
structure HTTPResponse where
  status : Nat
  body : Option DIDDocument
deriving DecidableEq

/-- External HTTP oracle: none = request error, network failure or timeout. -/
abbrev HttpOracle := Str → Option HTTPResponse

def plcUrl (did : Str) : Str := ("https://plc.directory/".data) ++ did

def webUrl (domain : Str) : Str :=
  ("https://".data) ++ domain ++ ("/.well-known/did.json".data)

/-- validatePLCDID: GET https://plc.directory/{did}, decode the body, return
its id.  The source never inspects resp.StatusCode. -/
def validatePLCDID (http : HttpOracle) (did : Str) : Option Str :=
  match http (plcUrl did) with
  | none => none
  | some resp =>
    match resp.body with
    | none => none
    | some doc => some doc.id

/-- validateWebDID: SplitN(did, ":", 3); exactly three parts required; GET
https://{domain}/.well-known/did.json (redirects disabled, absorbed by the
oracle), decode, return its id.  The status code is never inspected. -/
def validateWebDID (http : HttpOracle) (did : Str) : Option Str :=
  match splitN did ':' 3 with
  | [_, _, domain] =>
    match http (webUrl domain) with
    | none => none
    | some resp =>
      match resp.body with
      | none => none
      | some doc => some doc.id
  | _ => none

/-- validateSubject: dispatch on the identifier prefix; any other prefix
yields none. -/
def validateSubject (http : HttpOracle) (subject : Str) : Option Str :=
  if startsWithStr subject ("did:plc:".data) then validatePLCDID http subject
  else if startsWithStr subject ("did:web:".data) then validateWebDID http subject
  else none

/-- Decoded meow record payload. -/
structure MeowRecord where
  type : Str
  emotion : Option Str
  subject : Option Str
deriving DecidableEq

/-- Commit part of the websocket envelope.  `record` models the result of
json.Unmarshal on the embedded RawMessage payload: `none` means the nested
payload failed to parse (including the absent-payload case, where
unmarshalling a nil RawMessage errors). -/
structure Commit where
  rev : Str
  operation : Str
  collection : Str
  rkey : Str
  record : Option MeowRecord
  cid : Str
deriving DecidableEq

structure WebSocketMessage where
  did : Str
  timeUS : Int
  kind : Str
  commit : Commit
deriving DecidableEq

/-- A stored row of the meows table (variant with a synthetic uuid primary
key; the uuid is modelled as a Nat drawn from a fresh counter). -/
structure Row where
  id : Nat
  rkey : Str
  timeUS : Int
  cid : Str
  did : Str
  emotion : Option Str
  subject : Option Str
deriving DecidableEq

/-- The meows table plus the fresh-uuid supply. -/
structure Store where
  rows : List Row
  nextId : Nat
deriving DecidableEq

def emptyStore : Store := { rows := [], nextId := 0 }

/-- Cassandra INSERT semantics: upsert by the primary key (the synthetic id
column).  Row order is immaterial; we keep the new row at the head. -/
def upsertById (rows : List Row) (r : Row) : List Row :=
  r :: rows.filter (fun x => ¬ (x.id = r.id))

def semiChar : Char := Char.ofNat 59
def quoteChar : Char := Char.ofNat 39
def dquoteChar : Char := Char.ofNat 34
def backtickChar : Char := Char.ofNat 96

/-- The two consecutive rejection checks on the (truncated) emotion: the four
character checks, then the five substring checks, all via strings.Contains on
the value as-is. -/
def denylistHit (s : Str) : Bool :=
  (strContains s [semiChar] || strContains s [quoteChar] ||
   strContains s [dquoteChar] || strContains s [backtickChar]) ||
  (strContains s ("create".data) || strContains s ("insert".data) ||
   strContains s ("update".data) || strContains s ("delete".data) ||
   strContains s ("drop".data))

/-- The emotion handling block: result none = drop the whole message;
some e = proceed with emotion field e.  The lowercased copy computed first
(mirroring the source) is overwritten by the truncated original before any
check or use, so it is dead. -/
def validateEmotion : Option Str → Option (Option Str)
  | none => some none
  | some e =>
    let _lowered := toLowerStr e
    let truncated := if 50 < e.length then e.take 50 else e
    if denylistHit truncated then none
    else some (some truncated)

/-- One iteration of the ingestion loop after the envelope decoded: unmarshal
the record payload (failure skips the message, before the operation switch),
validate the emotion (denylist hit skips the message), resolve the subject,
then dispatch on the operation.  create/update insert with a fresh uuid.
delete issues DELETE FROM meows WHERE rkey = ?, but in this schema the
primary key is the id UUID column and rkey is only secondary-indexed, so
Cassandra rejects the statement (a DELETE cannot restrict a non-primary-key
column): the error is only logged and the store is left unchanged.  Any
other operation is a logged no-op. -/
def processMessage (http : HttpOracle) (st : Store) (msg : WebSocketMessage) : Store :=
  match msg.commit.record with
  | none => st
  | some record =>
    match validateEmotion record.emotion with
    | none => st
    | some emotion =>
      if msg.commit.operation = ("create".data) ∨ msg.commit.operation = ("update".data) then
        { rows := upsertById st.rows
            { id := st.nextId, rkey := msg.commit.rkey, timeUS := msg.timeUS,
              cid := msg.commit.cid, did := msg.did, emotion := emotion,
              subject := match record.subject with
                         | some s => validateSubject http s
                         | none => none },
          nextId := st.nextId + 1 }
      else if msg.commit.operation = ("delete".data) then
        st
      else st

/-- Lookup a row by rkey (SELECT ... WHERE rkey = ? LIMIT 1). -/
def lookupByRkey (st : Store) (k : Str) : Option Row :=
  st.rows.find? (fun r => decide (r.rkey = k))

/-- A delete message for key k whose record payload parses (e.g. an explicit
JSON null payload unmarshals into the zero MeowRecord). -/
def deleteMsg (k : Str) : WebSocketMessage :=
  { did := [], timeUS := 0, kind := ("commit".data),
    commit := { rev := [], operation := ("delete".data), collection := [],
                rkey := k, record := some { type := [], emotion := none, subject := none },
                cid := [] } }

def httpNone : HttpOracle := fun _ => none

/-- main.go variant of the stored row: rkey itself is the primary key. -/
structure RowM where
  rkey : Str
  timeUS : Int
  cid : Str
  did : Str
  emotion : Option Str
  subject : Option Str
deriving DecidableEq

/-- main.go variant INSERT: upsert by the rkey primary key. -/
def upsertByRkeyM (rows : List RowM) (r : RowM) : List RowM :=
  r :: rows.filter (fun x => ¬ (x.rkey = r.rkey))

/-- main.go variant DELETE: there rkey is the primary key, so the DELETE by
rkey is valid CQL and removes the row. -/
def deleteByRkeyM (rows : List RowM) (k : Str) : List RowM :=
  rows.filter (fun x => ¬ (x.rkey = k))

/-- Value of one decimal digit byte, none otherwise. -/
def digitVal (c : Char) : Option Nat :=
  if c.isDigit then some (c.toNat - 48) else none

def digitsValAux : Str → Nat → Option Nat
  | [], acc => some acc
  | c :: rest, acc =>
    match digitVal c with
    | none => none
    | some d => digitsValAux rest (acc * 10 + d)

/-- strconv.Atoi with the error discarded (the handler writes
limit, _ := strconv.Atoi(...)), so any parse failure leaves the zero value.
The int64 range clamp on overflow is not modelled; it only ever raises the
parsed magnitude further above any bound we reason about. -/
def atoi (s : Str) : Int :=
  match s with
  | [] => 0
  | c :: rest =>
    if c = '-' then
      match rest, digitsValAux rest 0 with
      | _ :: _, some n => -(n : Int)
      | _, _ => 0
    else if c = '+' then
      match rest, digitsValAux rest 0 with
      | _ :: _, some n => (n : Int)
      | _, _ => 0
    else
      match digitsValAux s 0 with
      | some n => (n : Int)
      | none => 0

/-- c.DefaultQuery(name, fallback): the fallback stands in for a missing
query parameter. -/
def defaultQuery (q : Option Str) (dflt : Str) : Str := q.getD dflt

/-- The limit computation of getLastMeows: parse (default "10"), then clamp
anything above 100 down to 100. -/
def effectiveLimit (q : Option Str) : Int :=
  let limit := atoi (defaultQuery q ("10".data))
  if 100 < limit then 100 else limit

/-- The rows returned by getLastMeows: SELECT ... LIMIT l over the table
(a nonpositive limit returns no rows). -/
def getLastMeowsRows (st : Store) (q : Option Str) : List Row :=
  st.rows.take (effectiveLimit q).toNat

/-- The rkey check of getMeow: regexp ^[a-z0-9]\x7b13\x7d$. -/
def rkeyValid (s : Str) : Bool :=
  decide (s.length = 13) &&
  s.all (fun c => (decide ('a' ≤ c) && decide (c ≤ 'z')) ||
                  (decide ('0' ≤ c) && decide (c ≤ '9')))

inductive GetMeowResult where
  | badRequest (msg : Str)
  | notFound
  | ok (m : Row)
deriving DecidableEq

/-- The getMeow handler.  validateDID is called in the source but defined
nowhere in the repository, so it is passed in abstractly; the handler
rejects whenever its result differs from the raw did.  The row found is
returned with its rkey overwritten by the query parameter, as in the
source. -/
def getMeow (validateDID : Str → Str) (st : Store) (rkey did : Str) : GetMeowResult :=
  if ¬ (validateDID did = did) then .badRequest ("invalid did".data)
  else if ¬ (rkeyValid rkey = true) then .badRequest ("invalid rkey".data)
  else
    match st.rows.find? (fun r => decide (r.rkey = rkey) && decide (r.did = validateDID did)) with
    | none => .notFound
    | some m => .ok { m with rkey := rkey }

/-- The failure cases of the identity resolver that yield none: unsupported
prefix; or PLC lookup with a network-level failure or an undecodable body;
or web lookup with a malformed colon-split, a network-level failure, or an
undecodable body.  (The HTTP status code is deliberately absent: the source
never reads it.) -/
def resolverFailureCase (http : HttpOracle) (s : Str) : Prop :=
  (startsWithStr s ("did:plc:".data) = false ∧ startsWithStr s ("did:web:".data) = false) ∨
  (startsWithStr s ("did:plc:".data) = true ∧
    (http (plcUrl s) = none ∨ ∃ resp, http (plcUrl s) = some resp ∧ resp.body = none)) ∨
  (startsWithStr s ("did:plc:".data) = false ∧ startsWithStr s ("did:web:".data) = true ∧
    ((splitN s ':' 3).length ≠ 3 ∨
     ∀ a b domain, splitN s ':' 3 = [a, b, domain] →
       (http (webUrl domain) = none ∨ ∃ resp, http (webUrl domain) = some resp ∧ resp.body = none)))

/- Concrete fixtures used by the closed evaluations and the witnesses. -/

def msgC1 : WebSocketMessage :=
  { did := ("did:plc:abc".data), timeUS := 1, kind := ("commit".data),
    commit := { rev := [], operation := ("create".data), collection := [],
                rkey := ("abcdefghijklm".data),
                record := some { type := ("x".data), emotion := none, subject := none },
                cid := ("cid1".data) } }

def msgC2 : WebSocketMessage :=
  { did := ("did:plc:abc".data), timeUS := 2, kind := ("commit".data),
    commit := { rev := [], operation := ("create".data), collection := [],
                rkey := ("abcdefghijklm".data),
                record := some { type := ("x".data), emotion := some ("CREATE".data),
                                 subject := none },
                cid := ("cid2".data) } }

def recC5 : MeowRecord :=
  { type := ("x".data), emotion := some (List.replicate 51 'a'), subject := none }

def msgC5 : WebSocketMessage :=
  { did := ("did:plc:abc".data), timeUS := 5, kind := ("commit".data),
    commit := { rev := [], operation := ("create".data), collection := [],
                rkey := ("abcdefghijklm".data), record := some recC5,
                cid := ("cid5".data) } }

def rowK : Row :=
  { id := 0, rkey := ("abcdefghijklm".data), timeUS := 1, cid := ("cid1".data),
    did := ("did:plc:abc".data), emotion := none, subject := none }

def storeK : Store := { rows := [rowK], nextId := 1 }

/-- A delete for the key held by storeK whose record payload fails to
parse (record = none models the json.Unmarshal failure, which also covers
the payload-absent case of real delete events). -/
def msgC6 : WebSocketMessage :=
  { did := ("did:plc:abc".data), timeUS := 6, kind := ("commit".data),
    commit := { rev := [], operation := ("delete".data), collection := [],
                rkey := ("abcdefghijklm".data), record := none,
                cid := ("cid6".data) } }

def msgC7 : WebSocketMessage :=
  { did := ("did:plc:abc".data), timeUS := 7, kind := ("commit".data),
    commit := { rev := [], operation := ("create".data), collection := [],
                rkey := ("abcdefghijklm".data),
                record := some { type := ("x".data), emotion := some ("Happy!!!".data),
                                 subject := some ("did:web:example.com".data) },
                cid := ("cid7".data) } }

/-- Resolver oracle for the C7 scenario: the well-known document of
example.com decodes with id did:web:example.com. -/
def httpC7 : HttpOracle := fun url =>
  if url = webUrl ("example.com".data) then
    some { status := 200, body := some { id := ("did:web:example.com".data) } }
  else none

/-- Oracle answering the PLC lookup of did:plc:bad with a 404 whose body
nevertheless decodes. -/
def http404 : HttpOracle := fun url =>
  if url = plcUrl ("did:plc:bad".data) then
    some { status := 404, body := some { id := ("spoofed".data) } }
  else none

def recW3 : MeowRecord :=
  { type := ("x".data), emotion := none, subject := some ("bogus".data) }

def msgW3 : WebSocketMessage :=
  { did := ("did:plc:abc".data), timeUS := 3, kind := ("commit".data),
    commit := { rev := [], operation := ("create".data), collection := [],
                rkey := ("abcdefghijklm".data), record := some recW3,
                cid := ("cid3".data) } }

def rowW3 : Row :=
  { id := 0, rkey := ("abcdefghijklm".data), timeUS := 3, cid := ("cid3".data),
    did := ("did:plc:abc".data), emotion := none, subject := none }

/-- Claim C1: applying the same create message twice to an empty store is
claimed to yield exactly one row.  In the code the table is keyed by a
synthetic uuid and every message inserts under a fresh uuid, so the second
application of msgC1 yields a store with two rows (both carrying the same
rkey), while a single application yields one. -/
theorem createTwiceDuplicates :
    (processMessage httpNone (processMessage httpNone emptyStore msgC1) msgC1).rows.length = 2 ∧
    (processMessage httpNone emptyStore msgC1).rows.length = 1 ∧
    (processMessage httpNone (processMessage httpNone emptyStore msgC1) msgC1).rows.map
      Row.rkey = [("abcdefghijklm".data), ("abcdefghijklm".data)] := by
  decide

/-- Claim C2: an emotion containing a denylisted substring in upper case is
claimed to be dropped (case-insensitive matching).  The code checks the
truncated original (the lowercased copy is overwritten before use), so the
substring checks are case-sensitive and the message with emotion CREATE is
persisted rather than dropped. -/
theorem uppercaseEmotionPersisted :
    (processMessage httpNone emptyStore msgC2).rows.map Row.emotion =
      [some ("CREATE".data)] ∧
    strContains (toLowerStr ("CREATE".data)) ("create".data) = true := by
  decide

/-- Claim C6: a delete whose embedded record payload fails to parse is
claimed to still proceed.  The code unmarshals the record payload before the
operation switch and skips the whole message on failure, so the row for the
deleted key survives. -/
theorem recordParseFailureSkipsDelete :
    processMessage httpNone storeK msgC6 = storeK ∧
    lookupByRkey (processMessage httpNone storeK msgC6) ("abcdefghijklm".data) = some rowK := by
  decide

/-- Claim C7: the scenario create for rkey abcdefghijklm with emotion
Happy!!! and subject did:web:example.com.  The row is persisted with the
resolved subject, but the stored emotion is the truncated original
Happy!!! — the lowercase coercion computed in the source is overwritten
before the insert — not the claimed happy!!!. -/
theorem scenarioEmotionNotLowercased :
    (processMessage httpC7 emptyStore msgC7).rows =
      [{ id := 0, rkey := ("abcdefghijklm".data), timeUS := 7, cid := ("cid7".data),
         did := ("did:plc:abc".data), emotion := some ("Happy!!!".data),
         subject := some ("did:web:example.com".data) }] ∧
    ¬ (("Happy!!!".data) = ("happy!!!".data)) := by
  decide

/-- Claim C4 counterexample: the claim says a non-2xx response makes the
resolver return none, but the source never reads the status code: a 404
whose body decodes yields that body's id. -/
theorem statusIgnoredCounterexample :
    (http404 (plcUrl ("did:plc:bad".data))).map HTTPResponse.status = some 404 ∧
    validateSubject http404 ("did:plc:bad".data) = some ("spoofed".data) := by
  decide

/-- Claim C8: a delete is claimed to remove the row by recordKey so that a
lookup by that key is then not-found.  In the modelled schema the primary
key is the synthetic id UUID and rkey is only secondary-indexed, so the
DELETE FROM meows WHERE rkey = ? is rejected by the store (a DELETE cannot
restrict a non-primary-key column); the error is only logged, the row
survives, and the lookup still finds it. -/
theorem deleteRejectedRowSurvives :
    processMessage httpNone storeK (deleteMsg ("abcdefghijklm".data)) = storeK ∧
    lookupByRkey (processMessage httpNone storeK (deleteMsg ("abcdefghijklm".data)))
      ("abcdefghijklm".data) = some rowK := by
  decide

/-- In the main.go variant rkey itself is the primary key, so the same
DELETE statement is valid and behaves as the claim says: the row is gone
afterwards, and deleting an absent key changes nothing and raises no
error. -/
theorem deleteByRkeyM_removes (rows : List RowM) (k : Str) :
    (deleteByRkeyM rows k).find? (fun r => decide (r.rkey = k)) = none ∧
    (rows.find? (fun r => decide (r.rkey = k)) = none → deleteByRkeyM rows k = rows) := by
  constructor
  · rw [deleteByRkeyM, List.find?_eq_none]
    intro r hr
    have h2 := (List.mem_filter.mp hr).2
    simpa using h2
  · intro h
    rw [List.find?_eq_none] at h
    rw [deleteByRkeyM, List.filter_eq_self]
    intro r hr
    have := h r hr
    simpa using this

theorem validateSubject_some (http : HttpOracle) (s c : Str)
    (h : validateSubject http s = some c) :
    ∃ url resp doc, http url = some resp ∧ resp.body = some doc ∧ c = doc.id := by
  unfold validateSubject at h
  split_ifs at h with h1 h2
  · unfold validatePLCDID at h
    split at h
    · exact Option.noConfusion h
    · next resp hr =>
      split at h
      · exact Option.noConfusion h
      · next doc hb =>
        exact ⟨plcUrl s, resp, doc, hr, hb, (Option.some.inj h).symm⟩
  · unfold validateWebDID at h
    split at h
    · next a b domain hsp =>
      split at h
      · exact Option.noConfusion h
      · next resp hr =>
        split at h
        · exact Option.noConfusion h
        · next doc hb =>
          exact ⟨webUrl domain, resp, doc, hr, hb, (Option.some.inj h).symm⟩
    · exact Option.noConfusion h

/-- Claim C3: every row in the store after a message is either a previously
stored row, or carries a null subject, or carries exactly the id field of a
document obtained from the resolver's HTTP lookup; the raw unvalidated
subject string is never written on resolution failure. -/
theorem subjectAlwaysResolvedOrNull (http : HttpOracle) (st : Store) (msg : WebSocketMessage) :
    ∀ r ∈ (processMessage http st msg).rows,
      r ∈ st.rows ∨ r.subject = none ∨
      ∃ url resp doc, http url = some resp ∧ resp.body = some doc ∧
        r.subject = some doc.id := by
  intro r hr
  unfold processMessage at hr
  split at hr
  · exact Or.inl hr
  · next record hrec =>
    split at hr
    · exact Or.inl hr
    · next emotion hv =>
      split_ifs at hr with hop1 hop2
      · rw [upsertById] at hr
        rcases List.mem_cons.mp hr with hnew | hold
        · subst hnew
          cases hsub : record.subject with
          | none => right; left; simp [hsub]
          | some s =>
            cases hvs : validateSubject http s with
            | none => right; left; simp [hsub, hvs]
            | some c =>
              right; right
              obtain ⟨url, resp, doc, hu, hb, hc⟩ := validateSubject_some http s c hvs
              refine ⟨url, resp, doc, hu, hb, ?_⟩
              simp [hsub, hvs, hc]
        · exact Or.inl (List.mem_of_mem_filter hold)
      · exact Or.inl hr
      · exact Or.inl hr

theorem processMessage_create (http : HttpOracle) (st : Store) (msg : WebSocketMessage)
    (rec : MeowRecord) (emo : Option Str)
    (hrec : msg.commit.record = some rec)
    (hemo : validateEmotion rec.emotion = some emo)
    (hop : msg.commit.operation = ("create".data)) :
    processMessage http st msg =
      { rows := upsertById st.rows
          { id := st.nextId, rkey := msg.commit.rkey, timeUS := msg.timeUS,
            cid := msg.commit.cid, did := msg.did, emotion := emo,
            subject := match rec.subject with
                       | some s => validateSubject http s
                       | none => none },
        nextId := st.nextId + 1 } := by
  simp only [processMessage, hrec, hemo, hop]
  rw [if_pos (Or.inl trivial)]

theorem processMessage_dropped (http : HttpOracle) (st : Store) (msg : WebSocketMessage)
    (rec : MeowRecord)
    (hrec : msg.commit.record = some rec)
    (hemo : validateEmotion rec.emotion = none) :
    processMessage http st msg = st := by
  simp only [processMessage, hrec, hemo]

theorem validateSubject_none_of_failure (http : HttpOracle) (s : Str)
    (h : resolverFailureCase http s) : validateSubject http s = none := by
  unfold validateSubject
  rcases h with ⟨h1, h2⟩ | ⟨h1, h2⟩ | ⟨h1, h2, h3⟩
  · rw [if_neg (by simp [h1]), if_neg (by simp [h2])]
  · rw [if_pos h1]
    unfold validatePLCDID
    rcases h2 with hnet | ⟨resp, hr, hb⟩
    · simp only [hnet]
    · simp only [hr, hb]
  · rw [if_neg (by simp [h1]), if_pos h2]
    unfold validateWebDID
    rcases hsp : splitN s ':' 3 with _ | ⟨a, _ | ⟨b, _ | ⟨domain, _ | ⟨d, rest⟩⟩⟩⟩
    · rfl
    · rfl
    · rfl
    · rcases h3 with h3 | h3
      · rw [hsp] at h3; simp at h3
      · rcases h3 a b domain hsp with hnet | ⟨resp, hr, hb⟩
        · simp only [hnet]
        · simp only [hr, hb]
    · rfl

/-- Claim C4 (amended): the resolver returns none whenever the identifier
has an unsupported prefix, the colon-split is malformed, the lookup fails at
the network level (timeout included) or the response body is undecodable —
the HTTP status code is never inspected — and in every such case a create
still persists the rest of the row, with a null subject. -/
theorem resolverNoneCases (http : HttpOracle) (s : Str)
    (h : resolverFailureCase http s) :
    validateSubject http s = none ∧
    ∀ (st : Store) (msg : WebSocketMessage) (rec : MeowRecord) (emo : Option Str),
      msg.commit.record = some rec → rec.subject = some s →
      validateEmotion rec.emotion = some emo →
      msg.commit.operation = ("create".data) →
      ∃ rest, (processMessage http st msg).rows =
        { id := st.nextId, rkey := msg.commit.rkey, timeUS := msg.timeUS,
          cid := msg.commit.cid, did := msg.did, emotion := emo,
          subject := none } :: rest := by
  have hnone := validateSubject_none_of_failure http s h
  refine ⟨hnone, ?_⟩
  intro st msg rec emo hrec hsub hemo hop
  simp only [processMessage_create http st msg rec emo hrec hemo hop, hsub, hnone, upsertById]
  exact ⟨_, rfl⟩

/-- Claim C5: for an emotion longer than 50 bytes, either the truncated
prefix hits the denylist and the message is dropped, or the persisted row
carries exactly the first 50 bytes of the original; truncation by itself
never drops a message. -/
theorem emotionTruncatedTo50 (http : HttpOracle) (st : Store) (msg : WebSocketMessage)
    (rec : MeowRecord) (e : Str)
    (hrec : msg.commit.record = some rec) (he : rec.emotion = some e)
    (hlen : 50 < e.length)
    (hop : msg.commit.operation = ("create".data)) :
    (denylistHit (e.take 50) = true ∧ processMessage http st msg = st) ∨
    (denylistHit (e.take 50) = false ∧
      ∃ subj rest, (processMessage http st msg).rows =
        { id := st.nextId, rkey := msg.commit.rkey, timeUS := msg.timeUS,
          cid := msg.commit.cid, did := msg.did, emotion := some (e.take 50),
          subject := subj } :: rest) := by
  have hval : validateEmotion rec.emotion =
      if denylistHit (e.take 50) then none else some (some (e.take 50)) := by
    rw [he]
    show (if denylistHit (if 50 < e.length then e.take 50 else e) then none
          else some (some (if 50 < e.length then e.take 50 else e))) =
         (if denylistHit (e.take 50) then none else some (some (e.take 50)))
    rw [if_pos hlen]
  cases hd : denylistHit (e.take 50) with
  | true =>
    left
    have hemo : validateEmotion rec.emotion = none := by rw [hval, hd]; rfl
    exact ⟨rfl, processMessage_dropped http st msg rec hrec hemo⟩
  | false =>
    right
    have hemo : validateEmotion rec.emotion = some (some (e.take 50)) := by
      rw [hval, hd]; rfl
    refine ⟨rfl, ?_⟩
    simp only [processMessage_create http st msg rec (some (e.take 50)) hrec hemo hop, upsertById]
    exact ⟨_, _, rfl⟩

/-- Claim C9: getMeow answers bad-request whenever the did fails validation
or the rkey is not 13 lowercase alphanumerics, and the answer is then
independent of the store contents (no lookup with the unvalidated value). -/
theorem getMeow_badDid (v : Str → Str) (st : Store) (rkey did : Str)
    (h : ¬ (v did = did)) :
    getMeow v st rkey did = GetMeowResult.badRequest ("invalid did".data) := by
  unfold getMeow
  rw [if_pos h]

theorem getMeow_badRkey (v : Str → Str) (st : Store) (rkey did : Str)
    (hd : v did = did) (h : rkeyValid rkey = false) :
    getMeow v st rkey did = GetMeowResult.badRequest ("invalid rkey".data) := by
  unfold getMeow
  rw [if_neg (not_not_intro hd), if_pos (by simp [h])]

theorem getMeowRejectsInvalid (v : Str → Str) (rkey did : Str)
    (h : ¬ (v did = did) ∨ rkeyValid rkey = false) (st st' : Store) :
    (∃ m, getMeow v st rkey did = GetMeowResult.badRequest m) ∧
    getMeow v st rkey did = getMeow v st' rkey did := by
  rcases h with h | h
  · rw [getMeow_badDid v st rkey did h, getMeow_badDid v st' rkey did h]
    exact ⟨⟨_, rfl⟩, rfl⟩
  · by_cases hd : v did = did
    · rw [getMeow_badRkey v st rkey did hd h, getMeow_badRkey v st' rkey did hd h]
      exact ⟨⟨_, rfl⟩, rfl⟩
    · rw [getMeow_badDid v st rkey did hd, getMeow_badDid v st' rkey did hd]
      exact ⟨⟨_, rfl⟩, rfl⟩

/-- Claim C10: a missing limit parameter defaults to 10, a parsed limit
above 100 is clamped to 100 before the query runs, and the returned row
count never exceeds 100. -/
theorem lastMeowsLimitBounds (q : Str) (h : 100 < atoi q) :
    effectiveLimit none = 10 ∧
    effectiveLimit (some q) = 100 ∧
    ∀ (st : Store) (p : Option Str), (getLastMeowsRows st p).length ≤ 100 := by
  refine ⟨by decide, ?_, ?_⟩
  · show (if 100 < atoi (defaultQuery (some q) ("10".data)) then 100
          else atoi (defaultQuery (some q) ("10".data))) = 100
    rw [show defaultQuery (some q) ("10".data) = q from rfl, if_pos h]
  · intro st p
    have hle : (effectiveLimit p).toNat ≤ 100 := by
      show (if 100 < atoi (defaultQuery p ("10".data)) then (100 : Int)
            else atoi (defaultQuery p ("10".data))).toNat ≤ 100
      split_ifs with h1
      · decide
      · have h2 : atoi (defaultQuery p ("10".data)) ≤ ((100 : Nat) : Int) := by
          exact_mod_cast Int.not_lt.mp h1
        exact Int.toNat_le.mpr h2
    calc (getLastMeowsRows st p).length
        ≤ (effectiveLimit p).toNat := by
          simp [getLastMeowsRows]
      _ ≤ 100 := hle

/-- Witness for claim C3 at a concrete input: a create whose subject bogus
has no supported prefix is stored with a null subject. -/
theorem subjectAlwaysResolvedOrNullW :
    rowW3 ∈ (processMessage httpNone emptyStore msgW3).rows ∧
    (rowW3 ∈ emptyStore.rows ∨ rowW3.subject = none ∨
      ∃ url resp doc, httpNone url = some resp ∧ resp.body = some doc ∧
        rowW3.subject = some doc.id) :=
  ⟨by decide, subjectAlwaysResolvedOrNull httpNone emptyStore msgW3 rowW3 (by decide)⟩

/-- Witness for claim C4 at a concrete input: the subject bogus matches
neither prefix, the resolver yields none, and the rest of the row persists. -/
theorem resolverNoneCasesW :
    resolverFailureCase httpNone ("bogus".data) ∧
    validateSubject httpNone ("bogus".data) = none ∧
    ∃ rest, (processMessage httpNone emptyStore msgW3).rows = rowW3 :: rest := by
  have hcase : resolverFailureCase httpNone ("bogus".data) :=
    Or.inl ⟨by decide, by decide⟩
  have h := resolverNoneCases httpNone ("bogus".data) hcase
  exact ⟨hcase, h.1, h.2 emptyStore msgW3 recW3 none rfl rfl rfl rfl⟩

/-- Witness for claim C5 at a concrete input: 51 letters a truncate to 50
and are persisted. -/
theorem emotionTruncatedTo50W :
    (50 : Nat) < (List.replicate 51 'a').length ∧
    ((denylistHit ((List.replicate 51 'a').take 50) = true ∧
        processMessage httpNone emptyStore msgC5 = emptyStore) ∨
     (denylistHit ((List.replicate 51 'a').take 50) = false ∧
        ∃ subj rest, (processMessage httpNone emptyStore msgC5).rows =
          { id := emptyStore.nextId, rkey := msgC5.commit.rkey, timeUS := msgC5.timeUS,
            cid := msgC5.commit.cid, did := msgC5.did,
            emotion := some ((List.replicate 51 'a').take 50),
            subject := subj } :: rest)) :=
  ⟨by decide,
   emotionTruncatedTo50 httpNone emptyStore msgC5 recC5 (List.replicate 51 'a')
     rfl rfl (by decide) rfl⟩

/-- Witness for claim C9 at a concrete input: the three-byte upper-case
rkey ABC fails validation and getMeow answers bad-request for any store. -/
theorem getMeowRejectsInvalidW :
    rkeyValid ("ABC".data) = false ∧
    ((∃ m, getMeow (fun s => s) emptyStore ("ABC".data) ("x".data) =
        GetMeowResult.badRequest m) ∧
      getMeow (fun s => s) emptyStore ("ABC".data) ("x".data) =
      getMeow (fun s => s) storeK ("ABC".data) ("x".data)) :=
  ⟨by decide,
   getMeowRejectsInvalid (fun s => s) ("ABC".data) ("x".data) (Or.inr (by decide))
     emptyStore storeK⟩

/-- Witness for claim C10 at a concrete input: limit 500 is clamped to 100,
the default is 10, and a concrete store yields at most 100 rows. -/
theorem lastMeowsLimitBoundsW :
    (100 : Int) < atoi ("500".data) ∧
    effectiveLimit none = 10 ∧
    effectiveLimit (some ("500".data)) = 100 ∧
    (getLastMeowsRows storeK none).length ≤ 100 := by
  have h := lastMeowsLimitBounds ("500".data) (by decide)
  exact ⟨by decide, h.1, h.2.1, h.2.2 storeK none⟩

/-- In the main.go variant the rkey column itself is the primary key, so the
INSERT of a create is an idempotent upsert: repeating it changes nothing. -/
theorem upsertByRkeyM_idem (rows : List RowM) (r : RowM) :
    upsertByRkeyM (upsertByRkeyM rows r) r = upsertByRkeyM rows r := by
  unfold upsertByRkeyM
  congr 1
  rw [List.filter_cons]
  simp [List.filter_filter]

end Meowview
